import Mathlib

/-!
Shallow embedding of the goRag vector retrieval and ranking pipeline.

Go float32/float64 values are idealised as real numbers, Go `int` as `Int`,
and Go maps as association lists whose list order stands for one possible
Go map iteration order (Go map iteration order is unspecified, so theorems
quantifying over all stores cover all iteration orders).  A Go runtime
panic (e.g. `make` with a negative length, or indexing out of range) is
modelled as an explicit `panicked` outcome.
-/

namespace ToRag

/-- Document from internal/retriever (src/internal/llm/ollama.go, retriever part):
`ID`, `Content`, and an opaque metadata mapping (modelled as string pairs;
no verified claim inspects metadata values). -/
structure Document where
  ID : String
  Content : String
  Metadata : List (String × String)
deriving DecidableEq, Repr

/-- RetrievalResult from internal/retriever: a document paired with its score.
The local `scoreDoc` struct inside `Retrieve` has the same two fields and is
identified with this type. -/
structure RetrievalResult where
  Document : ToRag.Document
  Score : ℝ

/-- Embedder interface from internal/embedding: text to vector, batch form,
and the fixed dimension.  Fallible calls return `Except` with a message. -/
structure Embedder where
  EmbedText : String → Except String (List ℝ)
  EmbedTexts : List String → Except String (List (List ℝ))
  GetDimension : Int

/-! ### Go map model: association lists -/

/-- Lookup in a Go map modelled as an association list. -/
def mapFind? (k : String) (m : List (String × α)) : Option α :=
  (m.find? (fun p => p.1 == k)).map (fun p => p.2)

/-- Whether a Go map has the key `k`. -/
def mapHasKey (k : String) (m : List (String × α)) : Bool :=
  m.any (fun p => p.1 == k)

/-- Go map assignment `m[k] = v`: replace the binding in place if the key is
present, otherwise append it (one possible resulting iteration order). -/
def mapInsert (k : String) (v : α) (m : List (String × α)) : List (String × α) :=
  if mapHasKey k m then m.map (fun p => if p.1 == k then (k, v) else p)
  else m ++ [(k, v)]

/-- Go `delete(m, k)`: remove the binding if present, no-op otherwise. -/
def mapErase (k : String) (m : List (String × α)) : List (String × α) :=
  m.filter (fun p => !(p.1 == k))

/-- The key list of a Go map, in iteration order. -/
def mapKeys (m : List (String × α)) : List String :=
  m.map (fun p => p.1)

/-! ### MemoryRetriever state and cosine similarity -/

/-- MemoryRetriever (src/internal/llm/ollama.go lines 331-337): the documents
map, the vectors map, the embedder, and the fixed dimension. -/
structure MemoryRetriever where
  documents : List (String × Document)
  vectors : List (String × List ℝ)
  embedder : Embedder
  dimension : Int

/-- The dot-product accumulation of the `cosineSimilarity` loop. -/
def dotp : List ℝ → List ℝ → ℝ
  | a :: as, b :: bs => a * b + dotp as bs
  | _, _ => 0

/-- The squared-norm accumulation of the `cosineSimilarity` loop. -/
def sumsq : List ℝ → ℝ
  | [] => 0
  | x :: xs => x * x + sumsq xs

/-- cosineSimilarity (src/internal/llm/ollama.go lines 354-371): returns 0 on
length mismatch, 0 when either accumulated norm is zero, otherwise
`dot / (sqrt normA * sqrt normB)`. -/
noncomputable def cosineSimilarity (a b : List ℝ) : ℝ :=
  if a.length ≠ b.length then 0
  else if sumsq a = 0 ∨ sumsq b = 0 then 0
  else dotp a b / (Real.sqrt (sumsq a) * Real.sqrt (sumsq b))

/-! ### AddDocuments / DeleteDocument -/

/-- Outcome of a store mutation: success, an embedding error, or a runtime
panic (index out of range when the embedder returns too few vectors). -/
inductive AddOutcome
  | ok
  | embedError (e : String)
  | panicked
deriving DecidableEq, Repr

/-- The body of the `for i, doc := range documents` commit loop: store the
document and its vector under the document id, in both maps. -/
def storeEntry (d : Document) (v : List ℝ) (m : MemoryRetriever) : MemoryRetriever :=
  { m with
    documents := mapInsert d.ID d m.documents
    vectors := mapInsert d.ID v m.vectors }

/-- The commit loop of `AddDocuments`: pairs each document with `vectors[i]`;
running out of vectors is the Go index-out-of-range panic.  The panicking
iteration has already executed `m.documents[doc.ID] = doc` before `vectors[i]`
is evaluated, so that document is committed without its vector, and the
entries of earlier iterations stay committed. -/
def commitLoop : List Document → List (List ℝ) → MemoryRetriever → AddOutcome × MemoryRetriever
  | [], _, m => (AddOutcome.ok, m)
  | d :: _, [], m =>
    (AddOutcome.panicked, { m with documents := mapInsert d.ID d m.documents })
  | d :: ds, v :: vs, m => commitLoop ds vs (storeEntry d v m)

/-- AddDocuments (src/internal/llm/ollama.go lines 374-396): batch-embed every
document content, fail if the embedder fails, otherwise commit all pairs.
There is no dimension check. -/
def AddDocuments (m : MemoryRetriever) (documents : List Document) : AddOutcome × MemoryRetriever :=
  match m.embedder.EmbedTexts (documents.map (fun d => d.Content)) with
  | Except.error e => (AddOutcome.embedError ("failed to embed documents: " ++ e), m)
  | Except.ok vectors => commitLoop documents vectors m

/-- DeleteDocument (src/internal/llm/ollama.go lines 399-406): delete the id
from both maps; always succeeds. -/
def DeleteDocument (m : MemoryRetriever) (documentID : String) : AddOutcome × MemoryRetriever :=
  (AddOutcome.ok,
    { m with
      documents := mapErase documentID m.documents
      vectors := mapErase documentID m.vectors })

/-! ### The Retrieve sort (exchange selection sort from the source) -/

/-- One outer iteration of the double loop in `Retrieve`
(src/internal/llm/ollama.go lines 439-445): starting from the element at
position `i`, scan positions `i+1 .. n-1` and swap whenever the current front
element has a strictly smaller score.  Returns the final front element and
the list left in positions `i+1 .. n-1`. -/
noncomputable def selectPass (cur : RetrievalResult) :
    List RetrievalResult → RetrievalResult × List RetrievalResult
  | [] => (cur, [])
  | x :: xs =>
    if cur.Score < x.Score then
      let r := selectPass x xs
      (r.1, cur :: r.2)
    else
      let r := selectPass cur xs
      (r.1, x :: r.2)

/-- The full descending exchange sort of `Retrieve`. -/
noncomputable def selSortDesc : List RetrievalResult → List RetrievalResult
  | [] => []
  | x :: xs =>
    (selectPass x xs).1 :: selSortDesc (selectPass x xs).2
termination_by l => l.length
decreasing_by
  have h : ∀ (c : RetrievalResult) (l : List RetrievalResult),
      (selectPass c l).2.length = l.length := by
    intro c l
    induction l generalizing c with
    | nil => simp [selectPass]
    | cons a as ih =>
      by_cases hc : c.Score < a.Score <;> simp [selectPass, hc, ih]
  simp [h]

/-! ### Retrieve -/

/-- Outcome of `Retrieve`: results, an embedding error, or the runtime panic
triggered by `make([]RetrievalResult, topK)` with a negative length. -/
inductive RetrieveOutcome
  | ok (results : List RetrievalResult)
  | embedError (e : String)
  | panicked

/-- The scored list built by the `for id, doc := range m.documents` loop, in
map iteration order; a missing vector reads as the Go zero value `nil`. -/
noncomputable def scoreAll (m : MemoryRetriever) (queryVector : List ℝ) : List RetrievalResult :=
  m.documents.map (fun p =>
    { Document := p.2
      Score := cosineSimilarity queryVector ((mapFind? p.1 m.vectors).getD []) })

/-- Retrieve (src/internal/llm/ollama.go lines 409-461): embed the query,
score every entry, exchange-sort descending, clamp `topK` down to the entry
count, then build the result slice of length `topK` (a negative length
panics). -/
noncomputable def Retrieve (m : MemoryRetriever) (query : String) (topK : Int) : RetrieveOutcome :=
  match m.embedder.EmbedText query with
  | Except.error e => RetrieveOutcome.embedError ("failed to embed query: " ++ e)
  | Except.ok queryVector =>
    let sorted := selSortDesc (scoreAll m queryVector)
    let k : Int := if topK > (sorted.length : Int) then (sorted.length : Int) else topK
    if k < 0 then RetrieveOutcome.panicked
    else RetrieveOutcome.ok (sorted.take k.toNat)

/-! ### Ranking pipeline (src/unnamed/part_000 and src/internal/ranker/reranker.go) -/

/-- RankedItem from internal/ranker: id plus score. -/
structure RankedItem where
  ID : String
  Score : ℝ

/-- The contract of Go `sort.Slice(result, less)` with
`less i j := result[i].Score > result[j].Score`: the output is a permutation
of the input ordered so that no later element has a strictly greater score.
Go documents `sort.Slice` as not guaranteed to be stable, so this relation is
the complete behavioural specification available to callers. -/
def sortSliceByScoreDesc (input output : List RankedItem) : Prop :=
  input.Perm output ∧ output.Pairwise (fun a b => b.Score ≤ a.Score)

/-- SimpleRanker.Rank (src/unnamed/part_000 lines 46-55): copy the input and
`sort.Slice` it descending by score.  Modelled relationally through the
`sort.Slice` contract. -/
def SimpleRankerRank (items output : List RankedItem) : Prop :=
  sortSliceByScoreDesc items output

/-- The threshold filter loop of Reranker.Rank: keep items with
`Score >= scoreThreshold`, preserving order. -/
noncomputable def filterByThreshold (th : ℝ) : List RankedItem → List RankedItem
  | [] => []
  | x :: xs =>
    if th ≤ x.Score then x :: filterByThreshold th xs else filterByThreshold th xs

/-- The loop of `diversityFilter` with its `seen` set: keep the first
occurrence of each id. -/
def dedupById : List RankedItem → List String → List RankedItem
  | [], _ => []
  | x :: xs, seen =>
    if x.ID ∈ seen then dedupById xs seen else x :: dedupById xs (x.ID :: seen)

/-- diversityFilter (src/internal/ranker/reranker.go lines 53-70): lists of
length at most one are returned as-is, otherwise ids are deduplicated keeping
first occurrences. -/
def diversityFilter (items : List RankedItem) : List RankedItem :=
  if items.length ≤ 1 then items else dedupById items []

/-- Reranker.Rank (src/internal/ranker/reranker.go lines 25-50): empty input
is returned unchanged; otherwise drop items below the threshold, `sort.Slice`
descending by score (relational contract), then apply `diversityFilter`. -/
def RerankerRank (th : ℝ) : List RankedItem → List RankedItem → Prop
  | [], output => output = []
  | x :: xs, output =>
    ∃ sorted, sortSliceByScoreDesc (filterByThreshold th (x :: xs)) sorted ∧
      output = diversityFilter sorted

/-! ### Orchestrator (src/internal/rag/rag.go) -/

/-- Chat message from internal/llm. -/
structure Message where
  Role : String
  Content : String

/-- Outcome of RAGService.Query. -/
inductive QueryOutcome
  | ok (answer : String)
  | failure (msg : String)
  | panicked
deriving Repr

/-- RAGService.Query (src/internal/rag/rag.go lines 59-121), parameterised by
the retrieval step, the generation backend and the prompt builder: retrieve,
return the sentinel on an empty result list, otherwise build the context
string (contents joined by a blank line), build the prompt, and call the
generator with a single user message.  A retrieval panic propagates. -/
def ragQuery (retrieve : String → Int → RetrieveOutcome)
    (generate : List Message → Except String String)
    (buildPrompt : String → String → String)
    (query : String) (topK : Int) : QueryOutcome :=
  match retrieve query topK with
  | RetrieveOutcome.embedError e => QueryOutcome.failure ("failed to retrieve documents: " ++ e)
  | RetrieveOutcome.panicked => QueryOutcome.panicked
  | RetrieveOutcome.ok results =>
    if results.isEmpty then QueryOutcome.ok ("No relevant documents found.")
    else
      let contextStr := String.intercalate "\n\n" (results.map (fun r => r.Document.Content))
      match generate [{ Role := "user", Content := buildPrompt contextStr query }] with
      | Except.error e => QueryOutcome.failure ("failed to generate answer: " ++ e)
      | Except.ok answer => QueryOutcome.ok answer

/-! ### Lock discipline event traces (src/internal/llm/ollama.go) -/

/-- The externally visible events of one store operation, in source statement
order: lock acquisitions and releases, embedder calls, and map accesses. -/
inductive StoreEvent
  | lockWrite
  | unlockWrite
  | lockRead
  | unlockRead
  | embedCall
  | mapMutation
  | mapScan
deriving DecidableEq, Repr

/-- The statement order of AddDocuments (lines 374-396): `m.mu.Lock()` with a
deferred `Unlock`, then `EmbedTexts`, then the map writes. -/
def addDocumentsEvents : List StoreEvent :=
  [StoreEvent.lockWrite, StoreEvent.embedCall, StoreEvent.mapMutation, StoreEvent.unlockWrite]

/-- The statement order of Retrieve (lines 409-461): `m.mu.RLock()` with a
deferred `RUnlock`, then `EmbedText` on the query, then the scoring scan. -/
def retrieveEvents : List StoreEvent :=
  [StoreEvent.lockRead, StoreEvent.embedCall, StoreEvent.mapScan, StoreEvent.unlockRead]

/-- The trace contains an embedder call strictly between the given lock
acquisition and the matching release. -/
def embedBetween (lockEv unlockEv : StoreEvent) (tr : List StoreEvent) : Prop :=
  ∃ i j k : ℕ, i < j ∧ j < k ∧
    tr.get? i = some lockEv ∧
    tr.get? j = some StoreEvent.embedCall ∧
    tr.get? k = some unlockEv

/-! ### Store operation sequences and invariant vocabulary -/

/-- A store mutation: one `AddDocuments` or one `DeleteDocument` call. -/
inductive StoreOp
  | add (docs : List Document)
  | del (id : String)

/-- Apply one store mutation, keeping the resulting state. -/
def applyOp (m : MemoryRetriever) : StoreOp → MemoryRetriever
  | StoreOp.add docs => (AddDocuments m docs).2
  | StoreOp.del id => (DeleteDocument m id).2

/-- Apply a sequence of store mutations. -/
def applyOps (m : MemoryRetriever) : List StoreOp → MemoryRetriever
  | [] => m
  | op :: ops => applyOps (applyOp m op) ops

/-- The documents map and the vectors map hold exactly the same keys, in the
same iteration order. -/
def sameKeys (m : MemoryRetriever) : Prop :=
  mapKeys m.documents = mapKeys m.vectors

/-- The batch contract of the Embedder interface: a successful batch call
returns exactly one vector per input text. -/
def embedderOneVectorPerText (e : Embedder) : Prop :=
  ∀ (ts : List String) (vs : List (List ℝ)),
    e.EmbedTexts ts = Except.ok vs → vs.length = ts.length

/-! ### Concrete embedders, documents and stores for witnesses -/

/-- A deterministic all-empty-vector embedder used for concrete witnesses. -/
def constEmbedder : Embedder :=
  { EmbedText := fun _ => Except.ok []
    EmbedTexts := fun ts => Except.ok (ts.map (fun _ => []))
    GetDimension := 0 }

/-- A concrete document for the one-document witness store. -/
def witnessDoc : Document := { ID := "a", Content := "the cat sat", Metadata := [] }

/-- A concrete store holding `witnessDoc`. -/
def witnessStore : MemoryRetriever :=
  { documents := [("a", witnessDoc)]
    vectors := [("a", [])]
    embedder := constEmbedder
    dimension := 0 }

/-- The empty concrete store. -/
def emptyStore : MemoryRetriever :=
  { documents := []
    vectors := []
    embedder := constEmbedder
    dimension := 0 }

/-- An embedder whose vectors have length 1, against a dimension-2 store. -/
def mismatchEmbedder : Embedder :=
  { EmbedText := fun _ => Except.ok [1]
    EmbedTexts := fun ts => Except.ok (ts.map (fun _ => [1]))
    GetDimension := 2 }

/-- An empty store whose fixed dimension is 2. -/
def dimStore : MemoryRetriever :=
  { documents := []
    vectors := []
    embedder := mismatchEmbedder
    dimension := 2 }

/-- A concrete document for the dimension-mismatch scenario. -/
def mdoc : Document := { ID := "d", Content := "txt", Metadata := [] }

/-- An embedder that always fails. -/
def failEmbedder : Embedder :=
  { EmbedText := fun _ => Except.error ("boom")
    EmbedTexts := fun _ => Except.error ("boom")
    GetDimension := 0 }

/-- An empty store with the failing embedder. -/
def failStore : MemoryRetriever :=
  { documents := []
    vectors := []
    embedder := failEmbedder
    dimension := 0 }

/-- Concrete document with id `a`. -/
def docA : Document := { ID := "a", Content := "alpha", Metadata := [] }

/-- Concrete document with id `b`. -/
def docB : Document := { ID := "b", Content := "beta", Metadata := [] }

/-- A store whose map iteration order lists `b` before `a`; both entries have
the same (empty) vector, so both score identically against any query. -/
def tieStore : MemoryRetriever :=
  { documents := [("b", docB), ("a", docA)]
    vectors := [("b", []), ("a", [])]
    embedder := constEmbedder
    dimension := 0 }

/-- The same store contents as `tieStore` under the other possible map
iteration order: `a` listed before `b`.  As Go maps, `tieStore` and
`tieStore2` are equal. -/
def tieStore2 : MemoryRetriever :=
  { documents := [("a", docA), ("b", docB)]
    vectors := [("a", []), ("b", [])]
    embedder := constEmbedder
    dimension := 0 }

/-- Result for `docA` with score 0. -/
def resA : RetrievalResult := { Document := docA, Score := 0 }

/-- Result for `docB` with score 0. -/
def resB : RetrievalResult := { Document := docB, Score := 0 }

/-- Concrete ranked item, id `a`, score 1. -/
def itemA : RankedItem := { ID := "a", Score := 1 }

/-! ### Properties of the exchange sort -/

theorem selectPass_length (cur : RetrievalResult) (l : List RetrievalResult) :
    (selectPass cur l).2.length = l.length := by
  induction l generalizing cur with
  | nil => simp [selectPass]
  | cons x xs ih =>
    by_cases h : cur.Score < x.Score <;> simp [selectPass, h, ih]

theorem selectPass_perm (cur : RetrievalResult) (l : List RetrievalResult) :
    ((selectPass cur l).1 :: (selectPass cur l).2).Perm (cur :: l) := by
  induction l generalizing cur with
  | nil => simp [selectPass]
  | cons x xs ih =>
    by_cases h : cur.Score < x.Score
    · simp only [selectPass, if_pos h]
      exact (List.Perm.swap cur (selectPass x xs).1 (selectPass x xs).2).trans
        ((ih x).cons cur)
    · simp only [selectPass, if_neg h]
      exact (List.Perm.swap x (selectPass cur xs).1 (selectPass cur xs).2).trans
        (((ih cur).cons x).trans (List.Perm.swap cur x xs))

theorem selectPass_cur_le (cur : RetrievalResult) (l : List RetrievalResult) :
    cur.Score ≤ (selectPass cur l).1.Score := by
  induction l generalizing cur with
  | nil => simp [selectPass]
  | cons x xs ih =>
    by_cases h : cur.Score < x.Score
    · simp only [selectPass, if_pos h]
      exact le_of_lt (lt_of_lt_of_le h (ih x))
    · simp only [selectPass, if_neg h]
      exact ih cur

theorem selectPass_le (cur : RetrievalResult) (l : List RetrievalResult) :
    ∀ y ∈ (selectPass cur l).2, y.Score ≤ (selectPass cur l).1.Score := by
  induction l generalizing cur with
  | nil => simp [selectPass]
  | cons x xs ih =>
    by_cases h : cur.Score < x.Score
    · simp only [selectPass, if_pos h, List.mem_cons]
      rintro y (rfl | hy)
      · exact le_of_lt (lt_of_lt_of_le h (selectPass_cur_le x xs))
      · exact ih x y hy
    · simp only [selectPass, if_neg h, List.mem_cons]
      rintro y (rfl | hy)
      · exact le_trans (not_lt.mp h) (selectPass_cur_le cur xs)
      · exact ih cur y hy

/-- The exchange sort returns a permutation of its input. -/
theorem selSortDesc_perm : ∀ (n : ℕ) (l : List RetrievalResult),
    l.length ≤ n → (selSortDesc l).Perm l
  | _, [], _ => by simp [selSortDesc]
  | 0, _ :: _, h => by simp at h
  | n + 1, x :: xs, h => by
    rw [selSortDesc]
    have hl : (selectPass x xs).2.length ≤ n := by
      rw [selectPass_length]
      exact Nat.lt_succ_iff.mp (Nat.lt_of_lt_of_le (Nat.lt_succ_self _) h)
    exact ((selSortDesc_perm n _ hl).cons (selectPass x xs).1).trans (selectPass_perm x xs)

/-- The exchange sort output is non-increasing in score. -/
theorem selSortDesc_sorted : ∀ (n : ℕ) (l : List RetrievalResult),
    l.length ≤ n → (selSortDesc l).Pairwise (fun a b => b.Score ≤ a.Score)
  | _, [], _ => by simp [selSortDesc]
  | 0, _ :: _, h => by simp at h
  | n + 1, x :: xs, h => by
    rw [selSortDesc]
    have hl : (selectPass x xs).2.length ≤ n := by
      rw [selectPass_length]
      exact Nat.lt_succ_iff.mp (Nat.lt_of_lt_of_le (Nat.lt_succ_self _) h)
    refine List.Pairwise.cons (fun y hy => ?_) (selSortDesc_sorted n _ hl)
    exact selectPass_le x xs y ((selSortDesc_perm n _ hl).mem_iff.mp hy)

/-! ### Helper lemmas -/

theorem Retrieve_eq (m : MemoryRetriever) (q : String) (topK : Int) (qv : List ℝ)
    (hq : m.embedder.EmbedText q = Except.ok qv) :
    Retrieve m q topK =
      (if (if topK > ((selSortDesc (scoreAll m qv)).length : Int)
            then ((selSortDesc (scoreAll m qv)).length : Int) else topK) < 0
       then RetrieveOutcome.panicked
       else RetrieveOutcome.ok ((selSortDesc (scoreAll m qv)).take
         (if topK > ((selSortDesc (scoreAll m qv)).length : Int)
           then ((selSortDesc (scoreAll m qv)).length : Int) else topK).toNat)) := by
  unfold Retrieve
  rw [hq]

theorem selSortDesc_length (l : List RetrievalResult) :
    (selSortDesc l).length = l.length :=
  (selSortDesc_perm l.length l le_rfl).length_eq

theorem mapFind?_cons (id : String) (p : String × α) (l : List (String × α)) :
    mapFind? id (p :: l) = if p.1 == id then some p.2 else mapFind? id l := by
  by_cases h : p.1 == id
  · simp [mapFind?, List.find?_cons_of_pos, h]
  · simp [mapFind?, List.find?_cons_of_neg, h]

theorem scoreAll_length (m : MemoryRetriever) (qv : List ℝ) :
    (scoreAll m qv).length = m.documents.length := by
  simp [scoreAll]

/-! ### C1: Retrieve returns min(topK, entryCount) stored results, sorted -/

/-- C1.  When the query embedding succeeds and `topK >= 0`, `Retrieve` returns
exactly `min topK entryCount` results, each being a stored document paired
with its cosine similarity against the embedded query, sorted by
non-increasing score. -/
theorem claim_c1_retrieve_topk (m : MemoryRetriever) (q : String) (topK : Int)
    (qv : List ℝ) (hq : m.embedder.EmbedText q = Except.ok qv) (hk : 0 ≤ topK) :
    ∃ results, Retrieve m q topK = RetrieveOutcome.ok results ∧
      results.length = min topK.toNat m.documents.length ∧
      results.Pairwise (fun a b => b.Score ≤ a.Score) ∧
      ∀ r ∈ results, ∃ p ∈ m.documents, r.Document = p.2 ∧
        r.Score = cosineSimilarity qv ((mapFind? p.1 m.vectors).getD []) := by
  have hlen : (selSortDesc (scoreAll m qv)).length = m.documents.length := by
    rw [selSortDesc_length, scoreAll_length]
  set sorted := selSortDesc (scoreAll m qv) with hs
  set k : Int := if topK > (sorted.length : Int) then (sorted.length : Int) else topK with hkdef
  have hk0 : ¬ k < 0 := by
    rw [hkdef]; split <;> omega
  refine ⟨sorted.take k.toNat, ?_, ?_, ?_, ?_⟩
  · rw [Retrieve_eq m q topK qv hq, ← hs, ← hkdef, if_neg hk0]
  · rw [List.length_take, hlen]
    rw [hkdef]
    split
    · rename_i h
      rw [hlen] at h ⊢
      rw [Int.toNat_natCast, min_self, min_eq_right (by omega)]
    · rfl
  · exact ((selSortDesc_sorted (scoreAll m qv).length (scoreAll m qv) le_rfl).sublist
      (List.take_sublist _ _))
  · intro r hr
    have hr2 : r ∈ scoreAll m qv :=
      (selSortDesc_perm (scoreAll m qv).length (scoreAll m qv) le_rfl).mem_iff.mp
        (List.take_subset _ _ hr)
    simp only [scoreAll, List.mem_map] at hr2
    obtain ⟨p, hp, rfl⟩ := hr2
    exact ⟨p, hp, rfl, rfl⟩

/-- Witness for C1 at a concrete store, query and `topK = 5`. -/
theorem claim_c1_witness :
    ∃ results, Retrieve witnessStore ("cat sat") 5 = RetrieveOutcome.ok results ∧
      results.length = min (Int.toNat 5) witnessStore.documents.length ∧
      results.Pairwise (fun a b => b.Score ≤ a.Score) ∧
      ∀ r ∈ results, ∃ p ∈ witnessStore.documents, r.Document = p.2 ∧
        r.Score = cosineSimilarity [] ((mapFind? p.1 witnessStore.vectors).getD []) :=
  claim_c1_retrieve_topk witnessStore ("cat sat") 5 [] rfl (by decide)

/-! ### C7: cosineSimilarity and the zero-norm guard -/

theorem sumsq_nonneg (l : List ℝ) : 0 ≤ sumsq l := by
  induction l with
  | nil => simp [sumsq]
  | cons x xs ih => simpa [sumsq] using add_nonneg (mul_self_nonneg x) ih

theorem sumsq_eq_zero_of_all_zero (l : List ℝ) (h : ∀ x ∈ l, x = 0) : sumsq l = 0 := by
  induction l with
  | nil => simp [sumsq]
  | cons x xs ih =>
    have hx : x = 0 := h x (List.mem_cons_self x xs)
    have hxs : sumsq xs = 0 := ih (fun y hy => h y (List.mem_cons_of_mem x hy))
    simp [sumsq, hx, hxs]

/-- C7.  For equal-length vectors, `cosineSimilarity` is
`dot / (sqrt normA * sqrt normB)` with a nonzero denominator whenever both
accumulated norms are nonzero, and is exactly 0 whenever either norm is zero;
in particular a zero vector on either side always yields 0 (so the value is
always defined, never NaN, in the idealised real semantics). -/
theorem claim_c7_cosine :
    (∀ a b : List ℝ, a.length = b.length →
      (¬ (sumsq a = 0 ∨ sumsq b = 0) →
        cosineSimilarity a b = dotp a b / (Real.sqrt (sumsq a) * Real.sqrt (sumsq b)) ∧
        Real.sqrt (sumsq a) * Real.sqrt (sumsq b) ≠ 0) ∧
      ((sumsq a = 0 ∨ sumsq b = 0) → cosineSimilarity a b = 0)) ∧
    (∀ a b : List ℝ, (∀ x ∈ a, x = 0) →
      cosineSimilarity a b = 0 ∧ cosineSimilarity b a = 0) := by
  constructor
  · intro a b hab
    constructor
    · intro hnz
      rw [cosineSimilarity, if_neg (by simp [hab]), if_neg hnz]
      refine ⟨rfl, ?_⟩
      push_neg at hnz
      have ha : 0 < sumsq a := lt_of_le_of_ne (sumsq_nonneg a) (Ne.symm hnz.1)
      have hb : 0 < sumsq b := lt_of_le_of_ne (sumsq_nonneg b) (Ne.symm hnz.2)
      exact mul_ne_zero (ne_of_gt (Real.sqrt_pos.mpr ha)) (ne_of_gt (Real.sqrt_pos.mpr hb))
    · intro hz
      rw [cosineSimilarity, if_neg (by simp [hab]), if_pos hz]
  · intro a b ha
    have hz : sumsq a = 0 := sumsq_eq_zero_of_all_zero a ha
    constructor
    · rw [cosineSimilarity]
      split
      · rfl
      · rw [if_pos (Or.inl hz)]
    · rw [cosineSimilarity]
      split
      · rfl
      · rw [if_pos (Or.inr hz)]

/-- Witness for C7: a zero vector on either side yields exactly 0, and a
nonzero pair hits the division branch with a nonzero denominator. -/
theorem claim_c7_witness :
    (cosineSimilarity [(0 : ℝ)] [3] = 0 ∧ cosineSimilarity [(3 : ℝ)] [0] = 0) ∧
    cosineSimilarity [(1 : ℝ)] [1] =
      dotp [(1 : ℝ)] [1] / (Real.sqrt (sumsq [(1 : ℝ)]) * Real.sqrt (sumsq [(1 : ℝ)])) :=
  ⟨claim_c7_cosine.2 [0] [3] (by simp),
   ((claim_c7_cosine.1 [1] [1] rfl).1 (by norm_num [sumsq])).1⟩

/-! ### C8: empty retrieval yields the sentinel and skips generation -/

/-- C8.  Whenever the retrieval step returns an empty list, `Query` returns
exactly the sentinel text with no error, and its result is independent of the
generation backend (the generator is never consulted on this path). -/
theorem claim_c8_empty_sentinel (retrieve : String → Int → RetrieveOutcome)
    (generate : List Message → Except String String)
    (buildPrompt : String → String → String) (q : String) (k : Int)
    (h : retrieve q k = RetrieveOutcome.ok []) :
    ragQuery retrieve generate buildPrompt q k =
      QueryOutcome.ok ("No relevant documents found.") ∧
    ∀ generate2, ragQuery retrieve generate buildPrompt q k =
      ragQuery retrieve generate2 buildPrompt q k := by
  constructor
  · rw [ragQuery, h]
    rfl
  · intro generate2
    rw [ragQuery, h, ragQuery, h]
    rfl

theorem retrieve_emptyStore_eval :
    Retrieve emptyStore ("hi") 3 = RetrieveOutcome.ok [] := by
  rw [Retrieve_eq emptyStore ("hi") 3 [] rfl]
  norm_num [scoreAll, emptyStore, selSortDesc]

/-- Witness for C8: querying against the empty store returns the sentinel. -/
theorem claim_c8_witness :
    ragQuery (fun q k => Retrieve emptyStore q k)
      (fun _ => Except.ok ("generated")) (fun c q => c ++ q) ("hi") 3 =
      QueryOutcome.ok ("No relevant documents found.") :=
  (claim_c8_empty_sentinel (fun q k => Retrieve emptyStore q k)
    (fun _ => Except.ok ("generated")) (fun c q => c ++ q) ("hi") 3
    retrieve_emptyStore_eval).1

/-! ### C2: AddDocuments has no dimension check; atomic only on embed failure -/

/-- Counterexample to C2: the embedder returns a vector of length 1 for a
store of dimension 2, yet `AddDocuments` succeeds and commits the entry —
no `DimensionMismatch` failure occurs anywhere in the code path. -/
theorem claim_c2_counterexample :
    (AddDocuments dimStore [mdoc]).1 = AddOutcome.ok ∧
    mapFind? ("d") (AddDocuments dimStore [mdoc]).2.vectors = some [(1 : ℝ)] ∧
    dimStore.dimension = 2 ∧ ([(1 : ℝ)] : List ℝ).length = 1 :=
  ⟨rfl, rfl, rfl, rfl⟩

theorem commitLoop_ok : ∀ (ds : List Document) (vs : List (List ℝ)) (m : MemoryRetriever),
    ds.length ≤ vs.length → (commitLoop ds vs m).1 = AddOutcome.ok
  | [], _, _, _ => rfl
  | _ :: _, [], _, h => by simp at h
  | _ :: ds, _ :: vs, m, h =>
    commitLoop_ok ds vs _ (Nat.succ_le_succ_iff.mp (by simpa using h))

/-- C2 amended: `AddDocuments` performs no dimension check.  It fails exactly
when `EmbedTexts` fails, and then the store is unchanged (atomic); whenever
`EmbedTexts` returns at least one vector per document, the call succeeds
regardless of the vector lengths. -/
theorem claim_c2_amended :
    (∀ (m : MemoryRetriever) (docs : List Document) (e : String),
      m.embedder.EmbedTexts (docs.map (fun d => d.Content)) = Except.error e →
      AddDocuments m docs = (AddOutcome.embedError ("failed to embed documents: " ++ e), m)) ∧
    (∀ (m : MemoryRetriever) (docs : List Document) (vs : List (List ℝ)),
      m.embedder.EmbedTexts (docs.map (fun d => d.Content)) = Except.ok vs →
      docs.length ≤ vs.length →
      (AddDocuments m docs).1 = AddOutcome.ok) := by
  constructor
  · intro m docs e h
    unfold AddDocuments
    rw [h]
  · intro m docs vs h hlen
    unfold AddDocuments
    rw [h]
    exact commitLoop_ok docs vs m hlen

/-- Witness for the amended C2: a failing batch commits nothing, and a
length-correct batch succeeds. -/
theorem claim_c2_witness :
    AddDocuments failStore [mdoc] =
      (AddOutcome.embedError ("failed to embed documents: " ++ "boom"), failStore) ∧
    (AddDocuments dimStore [mdoc]).1 = AddOutcome.ok :=
  ⟨claim_c2_amended.1 failStore [mdoc] ("boom") rfl,
   claim_c2_amended.2 dimStore [mdoc] [[1]] rfl (by decide)⟩

/-! ### C4: topK = 0 and the empty store are fine, but negative topK panics -/

/-- Counterexample to C4: `Retrieve` with `topK = -1` reaches
`make([]RetrievalResult, -1)` and panics instead of returning an empty list. -/
theorem claim_c4_counterexample :
    Retrieve emptyStore ("q") (-1) = RetrieveOutcome.panicked ∧
    Retrieve emptyStore ("q") (-1) ≠ RetrieveOutcome.ok [] := by
  have h : Retrieve emptyStore ("q") (-1) = RetrieveOutcome.panicked := by
    have h0 : selSortDesc (scoreAll emptyStore []) = [] := by
      simp [scoreAll, emptyStore, selSortDesc]
    rw [Retrieve_eq emptyStore ("q") (-1) [] rfl, h0]
    rw [if_pos (by norm_num)]
  exact ⟨h, by rw [h]; exact fun hc => RetrieveOutcome.noConfusion hc⟩

/-- C4 amended: when the query embedding succeeds, `Retrieve` with
`topK = 0` returns an empty list with no error, an empty store returns an
empty list for every `topK >= 0`, and any negative `topK` panics at the
result-slice allocation. -/
theorem claim_c4_amended :
    (∀ (m : MemoryRetriever) (q : String) (qv : List ℝ),
      m.embedder.EmbedText q = Except.ok qv →
      Retrieve m q 0 = RetrieveOutcome.ok []) ∧
    (∀ (m : MemoryRetriever) (q : String) (qv : List ℝ) (topK : Int),
      m.documents = [] → m.embedder.EmbedText q = Except.ok qv → 0 ≤ topK →
      Retrieve m q topK = RetrieveOutcome.ok []) ∧
    (∀ (m : MemoryRetriever) (q : String) (qv : List ℝ) (topK : Int),
      m.embedder.EmbedText q = Except.ok qv → topK < 0 →
      Retrieve m q topK = RetrieveOutcome.panicked) := by
  refine ⟨?_, ?_, ?_⟩
  · intro m q qv hq
    rw [Retrieve_eq m q 0 qv hq]
    rw [if_neg (by omega)]
    rw [if_neg (by omega)]
    simp
  · intro m q qv topK hdocs hq hk
    rw [Retrieve_eq m q topK qv hq]
    have hlen : (selSortDesc (scoreAll m qv)).length = 0 := by
      rw [selSortDesc_length, scoreAll_length, hdocs]
      rfl
    rw [if_neg (by rw [hlen]; omega)]
    congr 1
    have h0 : selSortDesc (scoreAll m qv) = [] := List.length_eq_zero.mp hlen
    rw [h0]
    exact List.take_nil
  · intro m q qv topK hq hk
    rw [Retrieve_eq m q topK qv hq]
    rw [if_pos (by split <;> omega)]

/-- Witness for the amended C4 at concrete stores and arguments. -/
theorem claim_c4_witness :
    Retrieve witnessStore ("q") 0 = RetrieveOutcome.ok [] ∧
    Retrieve emptyStore ("q") 7 = RetrieveOutcome.ok [] ∧
    Retrieve witnessStore ("q") (-2) = RetrieveOutcome.panicked :=
  ⟨claim_c4_amended.1 witnessStore ("q") [] rfl,
   claim_c4_amended.2.1 emptyStore ("q") [] 7 rfl rfl (by decide),
   claim_c4_amended.2.2 witnessStore ("q") [] (-2) rfl (by decide)⟩

/-! ### C3: ties are NOT broken by ascending id -/

theorem cos_nil_nil : cosineSimilarity [] [] = 0 := by
  simp [cosineSimilarity, sumsq]

theorem scoreAll_tieStore : scoreAll tieStore [] = [resB, resA] := by
  simp [scoreAll, tieStore, mapFind?, resA, resB, docA, docB, cos_nil_nil]

theorem selSort_tie : selSortDesc [resB, resA] = [resB, resA] := by
  simp [selSortDesc, selectPass, resA, resB]

theorem retrieve_tieStore_eval :
    Retrieve tieStore ("q") 2 = RetrieveOutcome.ok [resB, resA] := by
  rw [Retrieve_eq tieStore ("q") 2 [] rfl, scoreAll_tieStore, selSort_tie]
  norm_num [List.take]

/-- Counterexample to C3: with map iteration order `b` before `a` and equal
scores, the exchange sort never swaps, so the output lists id `b` before the
smaller id `a` — equal-score results are not ordered by ascending document
id, and the output is not a function of the store contents viewed as a map. -/
theorem claim_c3_counterexample :
    Retrieve tieStore ("q") 2 = RetrieveOutcome.ok [resB, resA] ∧
    resB.Score = resA.Score ∧
    ¬ ([resB, resA].Pairwise (fun a b => a.Score = b.Score → a.Document.ID < b.Document.ID)) := by
  refine ⟨retrieve_tieStore_eval, rfl, ?_⟩
  intro h
  have h2 := (List.pairwise_cons.mp h).1 resA (List.mem_singleton_self resA) rfl
  have h3 : ("b" : String) < "a" := h2
  revert h3
  simp [String.lt_iff]
  decide

theorem scoreAll_tieStore2 : scoreAll tieStore2 [] = [resA, resB] := by
  simp [scoreAll, tieStore2, mapFind?, resA, resB, docA, docB, cos_nil_nil]

theorem selSort_tie2 : selSortDesc [resA, resB] = [resA, resB] := by
  simp [selSortDesc, selectPass, resA, resB]

theorem retrieve_tieStore2_eval :
    Retrieve tieStore2 ("q") 2 = RetrieveOutcome.ok [resA, resB] := by
  rw [Retrieve_eq tieStore2 ("q") 2 [] rfl, scoreAll_tieStore2, selSort_tie2]
  norm_num [List.take]

theorem tieStores_same_documents :
    ∀ k, mapFind? k tieStore.documents = mapFind? k tieStore2.documents := by
  intro k
  by_cases h1 : (("b" : String) == k) <;> by_cases h2 : (("a" : String) == k)
  · exact absurd ((eq_of_beq h2).trans (eq_of_beq h1).symm) (by decide)
  · simp [tieStore, tieStore2, mapFind?_cons, mapFind?, h1, h2]
  · simp [tieStore, tieStore2, mapFind?_cons, mapFind?, h1, h2]
  · simp [tieStore, tieStore2, mapFind?_cons, mapFind?, h1, h2]

theorem tieStores_same_vectors :
    ∀ k, mapFind? k tieStore.vectors = mapFind? k tieStore2.vectors := by
  intro k
  by_cases h1 : (("b" : String) == k) <;> by_cases h2 : (("a" : String) == k)
  · exact absurd ((eq_of_beq h2).trans (eq_of_beq h1).symm) (by decide)
  · simp [tieStore, tieStore2, mapFind?_cons, mapFind?, h1, h2]
  · simp [tieStore, tieStore2, mapFind?_cons, mapFind?, h1, h2]
  · simp [tieStore, tieStore2, mapFind?_cons, mapFind?, h1, h2]

/-- C3 amended: successful `Retrieve` results are sorted by non-increasing
score, but no tie-break on equal scores is performed, and the relative order
of equal-score results depends on the map iteration order: `tieStore` and
`tieStore2` agree on every key of both maps and on the embedder, yet
`Retrieve` returns differently ordered results, so the output is not uniquely
determined by (store contents as a map, query, topK). -/
theorem claim_c3_amended :
    (∀ (m : MemoryRetriever) (q : String) (topK : Int) (qv : List ℝ)
      (results : List RetrievalResult),
      m.embedder.EmbedText q = Except.ok qv →
      Retrieve m q topK = RetrieveOutcome.ok results →
      results.Pairwise (fun a b => b.Score ≤ a.Score)) ∧
    ((∀ k, mapFind? k tieStore.documents = mapFind? k tieStore2.documents) ∧
     (∀ k, mapFind? k tieStore.vectors = mapFind? k tieStore2.vectors) ∧
     tieStore.embedder = tieStore2.embedder ∧
     Retrieve tieStore ("q") 2 = RetrieveOutcome.ok [resB, resA] ∧
     Retrieve tieStore2 ("q") 2 = RetrieveOutcome.ok [resA, resB] ∧
     [resB, resA] ≠ ([resA, resB] : List RetrievalResult)) := by
  refine ⟨?_, tieStores_same_documents, tieStores_same_vectors, rfl,
    retrieve_tieStore_eval, retrieve_tieStore2_eval, ?_⟩
  · intro m q topK qv results hq h
    rw [Retrieve_eq m q topK qv hq] at h
    have hsorted := selSortDesc_sorted (scoreAll m qv).length (scoreAll m qv) le_rfl
    split at h
    · split at h
      · cases h
      · injection h with h2
        rw [← h2]
        first
          | exact hsorted
          | exact hsorted.sublist (List.take_sublist _ _)
    · split at h
      · cases h
      · injection h with h2
        rw [← h2]
        first
          | exact hsorted
          | exact hsorted.sublist (List.take_sublist _ _)
  · intro hc
    have h0 := congrArg (fun l => (l.headD resA).Document.ID) hc
    simp [resA, resB, docA, docB] at h0

/-- Witness for the amended C3 at the concrete tie store. -/
theorem claim_c3_witness :
    [resB, resA].Pairwise (fun a b => b.Score ≤ a.Score) :=
  claim_c3_amended.1 tieStore ("q") 2 [] [resB, resA] rfl retrieve_tieStore_eval

/-! ### C6: threshold filter, dedup, and descending order of Reranker.Rank -/

theorem mem_filterByThreshold (th : ℝ) (l : List RankedItem) (x : RankedItem)
    (hx : x ∈ filterByThreshold th l) : th ≤ x.Score ∧ x ∈ l := by
  induction l with
  | nil => simp [filterByThreshold] at hx
  | cons y ys ih =>
    rw [filterByThreshold] at hx
    split at hx
    · rcases List.mem_cons.mp hx with rfl | hx2
      · exact ⟨by assumption, List.mem_cons_self _ _⟩
      · exact ⟨(ih hx2).1, List.mem_cons_of_mem _ (ih hx2).2⟩
    · exact ⟨(ih hx).1, List.mem_cons_of_mem _ (ih hx).2⟩

theorem mem_filterByThreshold_of (th : ℝ) (l : List RankedItem) (x : RankedItem)
    (hx : x ∈ l) (hs : th ≤ x.Score) : x ∈ filterByThreshold th l := by
  induction l with
  | nil => simp at hx
  | cons y ys ih =>
    rw [filterByThreshold]
    rcases List.mem_cons.mp hx with rfl | hx2
    · rw [if_pos hs]
      exact List.mem_cons_self _ _
    · split
      · exact List.mem_cons_of_mem _ (ih hx2)
      · exact ih hx2

theorem dedupById_sublist : ∀ (l : List RankedItem) (seen : List String),
    (dedupById l seen).Sublist l
  | [], _ => List.Sublist.refl []
  | x :: xs, seen => by
    rw [dedupById]
    split
    · exact (dedupById_sublist xs seen).cons x
    · exact (dedupById_sublist xs (x.ID :: seen)).cons₂ x

theorem dedupById_nodup : ∀ (l : List RankedItem) (seen : List String),
    ((dedupById l seen).map RankedItem.ID).Nodup ∧
    ∀ y ∈ dedupById l seen, y.ID ∉ seen
  | [], _ => by simp [dedupById]
  | x :: xs, seen => by
    rw [dedupById]
    split
    · obtain ⟨h1, h2⟩ := dedupById_nodup xs seen
      exact ⟨h1, h2⟩
    · obtain ⟨h1, h2⟩ := dedupById_nodup xs (x.ID :: seen)
      refine ⟨List.nodup_cons.mpr ⟨?_, h1⟩, ?_⟩
      · intro hmem
        obtain ⟨y, hy, hyid⟩ := List.mem_map.mp hmem
        exact h2 y hy (hyid ▸ List.mem_cons_self _ _)
      · intro y hy
        rcases List.mem_cons.mp hy with rfl | hy2
        · assumption
        · exact fun hc => h2 y hy2 (List.mem_cons_of_mem _ hc)

theorem dedupById_id_mem : ∀ (l : List RankedItem) (seen : List String)
    (a : RankedItem), a ∈ l → a.ID ∉ seen →
    ∃ z ∈ dedupById l seen, z.ID = a.ID
  | [], _, a, ha, _ => by simp at ha
  | x :: xs, seen, a, ha, hs => by
    rw [dedupById]
    split
    · rename_i hseen
      rcases List.mem_cons.mp ha with heq | ha2
      · exact absurd (by rw [heq]; exact hseen) hs
      · exact dedupById_id_mem xs seen a ha2 hs
    · rcases List.mem_cons.mp ha with heq | ha2
      · exact ⟨x, List.mem_cons_self _ _, by rw [heq]⟩
      · by_cases hid : a.ID = x.ID
        · exact ⟨x, List.mem_cons_self _ _, hid.symm⟩
        · obtain ⟨z, hz, hzid⟩ := dedupById_id_mem xs (x.ID :: seen) a ha2
            (by simp [hid, hs])
          exact ⟨z, List.mem_cons_of_mem _ hz, hzid⟩

theorem diversityFilter_sublist (l : List RankedItem) :
    (diversityFilter l).Sublist l := by
  rw [diversityFilter]
  split
  · exact List.Sublist.refl l
  · exact dedupById_sublist l []

theorem diversityFilter_nodup (l : List RankedItem) :
    ((diversityFilter l).map RankedItem.ID).Nodup := by
  rw [diversityFilter]
  split
  · rename_i h
    match l, h with
    | [], _ => simp
    | [x], _ => simp
  · exact (dedupById_nodup l []).1

theorem diversityFilter_id_mem (l : List RankedItem) (a : RankedItem) (ha : a ∈ l) :
    ∃ z ∈ diversityFilter l, z.ID = a.ID := by
  rw [diversityFilter]
  split
  · exact ⟨a, ha, rfl⟩
  · exact dedupById_id_mem l [] a ha (by simp)

/-- C6.  Every output of the threshold-dedup reranker contains only items at
or above the threshold, has pairwise distinct ids (keeping, for each id, the
first occurrence in the score-sorted order), and is sorted by non-increasing
score; moreover every above-threshold input id survives into the output. -/
theorem claim_c6_threshold_dedup (th : ℝ) (items output : List RankedItem)
    (h : RerankerRank th items output) :
    (∀ x ∈ output, th ≤ x.Score) ∧
    ((output.map RankedItem.ID).Nodup) ∧
    output.Pairwise (fun a b => b.Score ≤ a.Score) ∧
    (∀ y ∈ items, th ≤ y.Score → ∃ z ∈ output, z.ID = y.ID) := by
  match items, h with
  | [], h =>
    subst h
    refine ⟨by simp, by simp, by simp, by simp⟩
  | x :: xs, h =>
    obtain ⟨sorted, ⟨hperm, hsort⟩, rfl⟩ := h
    refine ⟨?_, diversityFilter_nodup sorted, hsort.sublist (diversityFilter_sublist sorted), ?_⟩
    · intro y hy
      have hy2 : y ∈ sorted := (diversityFilter_sublist sorted).mem hy
      exact (mem_filterByThreshold th (x :: xs) y (hperm.mem_iff.mpr hy2)).1
    · intro y hy hys
      have hy2 : y ∈ sorted := hperm.mem_iff.mp (mem_filterByThreshold_of th (x :: xs) y hy hys)
      exact diversityFilter_id_mem sorted y hy2

/-- Witness for C6 on a concrete singleton input at threshold 0. -/
theorem claim_c6_witness :
    (∀ x ∈ [itemA], (0 : ℝ) ≤ x.Score) ∧
    (([itemA]).map RankedItem.ID).Nodup ∧
    ([itemA]).Pairwise (fun a b => b.Score ≤ a.Score) ∧
    (∀ y ∈ [itemA], (0 : ℝ) ≤ y.Score → ∃ z ∈ [itemA], z.ID = y.ID) :=
  claim_c6_threshold_dedup 0 [itemA] [itemA]
    ⟨[itemA],
     by
      have hf : filterByThreshold 0 [itemA] = [itemA] := by
        rw [filterByThreshold, if_pos (by norm_num [itemA]), filterByThreshold]
      rw [hf]
      exact ⟨List.Perm.refl _, by simp⟩,
     rfl⟩

/-! ### C9: embedding happens inside the locks, not outside -/

/-- Counterexample to C9: it is false that the embedder calls happen outside
the locks — in `AddDocuments` the `EmbedTexts` call sits between `mu.Lock()`
and the deferred `mu.Unlock()`, and in `Retrieve` the `EmbedText` call sits
between `mu.RLock()` and the deferred `mu.RUnlock()`. -/
theorem claim_c9_counterexample :
    ¬ ((¬ embedBetween StoreEvent.lockWrite StoreEvent.unlockWrite addDocumentsEvents) ∧
       (¬ embedBetween StoreEvent.lockRead StoreEvent.unlockRead retrieveEvents)) := by
  intro h
  exact h.1 ⟨0, 1, 3, by decide, by decide, rfl, rfl, rfl⟩

/-- C9 amended: in the source statement order, the batch embedding of
`AddDocuments` executes while the write lock is held, and the query embedding
of `Retrieve` executes while the read lock is held. -/
theorem claim_c9_amended :
    embedBetween StoreEvent.lockWrite StoreEvent.unlockWrite addDocumentsEvents ∧
    embedBetween StoreEvent.lockRead StoreEvent.unlockRead retrieveEvents :=
  ⟨⟨0, 1, 3, by decide, by decide, rfl, rfl, rfl⟩,
   ⟨0, 1, 3, by decide, by decide, rfl, rfl, rfl⟩⟩

/-! ### C10: the documents and vectors maps always share one key set -/

theorem mapKeys_cons (p : String × α) (l : List (String × α)) :
    mapKeys (p :: l) = p.1 :: mapKeys l := rfl

theorem mapKeys_map_replace (k : String) (v : α) (l : List (String × α)) :
    mapKeys (l.map (fun p => if p.1 == k then (k, v) else p)) = mapKeys l := by
  induction l with
  | nil => rfl
  | cons p rest ih =>
    by_cases h : p.1 == k
    · rw [List.map_cons, if_pos h, mapKeys_cons, mapKeys_cons, ih]
      rw [show ((k, v).1 : String) = k from rfl, (eq_of_beq h).symm]
    · rw [List.map_cons, if_neg h, mapKeys_cons, mapKeys_cons, ih]

theorem mapHasKey_eq_keys (k : String) (l : List (String × α)) :
    mapHasKey k l = (mapKeys l).any (fun s => s == k) := by
  induction l with
  | nil => rfl
  | cons p rest ih =>
    rw [mapKeys_cons]
    simp only [mapHasKey, List.any_cons] at ih ⊢
    rw [ih]

theorem mapHasKey_congr (k : String) {l₁ : List (String × α)} {l₂ : List (String × β)}
    (h : mapKeys l₁ = mapKeys l₂) : mapHasKey k l₁ = mapHasKey k l₂ := by
  rw [mapHasKey_eq_keys, mapHasKey_eq_keys, h]

theorem mapKeys_mapInsert (k : String) (v : α) (l : List (String × α)) :
    mapKeys (mapInsert k v l) =
      if mapHasKey k l then mapKeys l else mapKeys l ++ [k] := by
  unfold mapInsert
  split
  · exact mapKeys_map_replace k v l
  · simp [mapKeys]

theorem mapKeys_mapErase (k : String) (l : List (String × α)) :
    mapKeys (mapErase k l) = (mapKeys l).filter (fun s => !(s == k)) := by
  induction l with
  | nil => rfl
  | cons p rest ih =>
    by_cases h : p.1 == k
    · rw [show mapErase k (p :: rest) = mapErase k rest from by
        simp [mapErase, List.filter_cons, h]]
      rw [mapKeys_cons, List.filter_cons]
      simp [h, ih]
    · rw [show mapErase k (p :: rest) = p :: mapErase k rest from by
        simp [mapErase, List.filter_cons, h]]
      rw [mapKeys_cons, mapKeys_cons, List.filter_cons]
      simp [h, ih]

theorem sameKeys_storeEntry (d : Document) (v : List ℝ) (m : MemoryRetriever)
    (h : sameKeys m) : sameKeys (storeEntry d v m) := by
  show mapKeys (mapInsert d.ID d m.documents) = mapKeys (mapInsert d.ID v m.vectors)
  rw [mapKeys_mapInsert, mapKeys_mapInsert, mapHasKey_congr d.ID h]
  split
  · exact h
  · rw [h]

theorem sameKeys_commitLoop : ∀ (ds : List Document) (vs : List (List ℝ))
    (m : MemoryRetriever), ds.length ≤ vs.length → sameKeys m →
    sameKeys (commitLoop ds vs m).2
  | [], _, _, _, h => h
  | _ :: _, [], _, hl, _ => absurd hl (by simp)
  | d :: ds, v :: vs, m, hl, h =>
    sameKeys_commitLoop ds vs _ (by simp only [List.length_cons] at hl; omega)
      (sameKeys_storeEntry d v m h)

theorem sameKeys_AddDocuments (m : MemoryRetriever) (docs : List Document)
    (hc : embedderOneVectorPerText m.embedder) (h : sameKeys m) :
    sameKeys (AddDocuments m docs).2 := by
  unfold AddDocuments
  split
  · exact h
  · rename_i vectors heq
    have hlen : docs.length ≤ vectors.length := by
      have h2 := hc _ _ heq
      simp only [List.length_map] at h2
      omega
    exact sameKeys_commitLoop docs vectors m hlen h

theorem sameKeys_DeleteDocument (m : MemoryRetriever) (id : String)
    (h : sameKeys m) : sameKeys (DeleteDocument m id).2 := by
  show mapKeys (mapErase id m.documents) = mapKeys (mapErase id m.vectors)
  rw [mapKeys_mapErase, mapKeys_mapErase, h]

theorem commitLoop_embedder : ∀ (ds : List Document) (vs : List (List ℝ))
    (m : MemoryRetriever), ((commitLoop ds vs m).2).embedder = m.embedder
  | [], _, _ => rfl
  | _ :: _, [], _ => rfl
  | d :: ds, v :: vs, m => commitLoop_embedder ds vs (storeEntry d v m)

theorem applyOp_embedder (m : MemoryRetriever) (op : StoreOp) :
    (applyOp m op).embedder = m.embedder := by
  cases op with
  | add docs =>
    show ((AddDocuments m docs).2).embedder = m.embedder
    unfold AddDocuments
    split
    · rfl
    · exact commitLoop_embedder _ _ _
  | del id => rfl

theorem sameKeys_applyOps : ∀ (m : MemoryRetriever) (ops : List StoreOp),
    embedderOneVectorPerText m.embedder → sameKeys m → sameKeys (applyOps m ops)
  | _, [], _, h => h
  | m, StoreOp.add docs :: ops, hc, h =>
    sameKeys_applyOps _ ops
      (by rw [applyOp_embedder]; exact hc)
      (sameKeys_AddDocuments m docs hc h)
  | m, StoreOp.del id :: ops, hc, h =>
    sameKeys_applyOps _ ops
      (by rw [applyOp_embedder]; exact hc)
      (sameKeys_DeleteDocument m id h)

theorem mapFind?_isSome_of_mem_keys (id : String) (l : List (String × α))
    (h : id ∈ mapKeys l) : ∃ v, mapFind? id l = some v := by
  induction l with
  | nil => simp [mapKeys] at h
  | cons p rest ih =>
    rw [mapFind?_cons]
    by_cases hb : p.1 == id
    · exact ⟨p.2, by rw [if_pos hb]⟩
    · rw [if_neg hb]
      rcases List.mem_cons.mp (by simpa [mapKeys_cons] using h) with heq | hm
      · exact absurd (by simp [heq]) hb
      · exact ih hm

theorem mapFind?_mapInsert_self (k : String) (v : α) (l : List (String × α)) :
    mapFind? k (mapInsert k v l) = some v := by
  induction l with
  | nil => simp [mapInsert, mapHasKey, mapFind?]
  | cons p rest ih =>
    by_cases h1 : p.1 == k
    · have hk : mapHasKey k (p :: rest) = true := by
        simp [mapHasKey, List.any_cons, h1]
      rw [mapInsert, if_pos hk, List.map_cons, if_pos h1, mapFind?_cons]
      simp
    · by_cases h2 : mapHasKey k rest = true
      · have hk : mapHasKey k (p :: rest) = true := by
          simp [mapHasKey, List.any_cons] at h2 ⊢
          exact Or.inr h2
        rw [mapInsert, if_pos hk, List.map_cons, if_neg h1, mapFind?_cons, if_neg h1]
        rw [mapInsert, if_pos h2] at ih
        exact ih
      · have hk : ¬ (mapHasKey k (p :: rest) = true) := by
          simp [mapHasKey, List.any_cons] at h2 ⊢
          exact ⟨fun hc => absurd (by simp [hc]) h1, h2⟩
        rw [mapInsert, if_neg hk, List.cons_append, mapFind?_cons, if_neg h1]
        rw [mapInsert, if_neg (by simpa using h2)] at ih
        exact ih

theorem mapKeys_length (l : List (String × α)) : (mapKeys l).length = l.length := by
  simp [mapKeys]

theorem AddDocuments_single (m : MemoryRetriever) (d : Document) (v : List ℝ)
    (h : m.embedder.EmbedTexts [d.Content] = Except.ok [v]) :
    AddDocuments m [d] = (AddOutcome.ok, storeEntry d v m) := by
  unfold AddDocuments
  rw [show (List.map (fun d => d.Content) [d]) = [d.Content] from rfl, h]
  rfl

/-- C10.  Assuming the Embedder returns exactly one vector per input text,
the documents map and the vectors map always hold the same key set: the
property is preserved by every sequence of `AddDocuments` and
`DeleteDocument` calls; every id present in the documents map has a stored
embedding; and re-adding an existing id (with the embedder returning one
vector for its text) succeeds, replaces both entries, and leaves the key
list — hence the store size — unchanged. -/
theorem claim_c10_invariant :
    (∀ (m : MemoryRetriever) (ops : List StoreOp),
      embedderOneVectorPerText m.embedder →
      sameKeys m → sameKeys (applyOps m ops)) ∧
    (∀ (m : MemoryRetriever) (id : String), sameKeys m →
      id ∈ mapKeys m.documents → ∃ v, mapFind? id m.vectors = some v) ∧
    (∀ (m : MemoryRetriever) (d : Document) (v : List ℝ),
      m.embedder.EmbedTexts [d.Content] = Except.ok [v] →
      sameKeys m → mapHasKey d.ID m.documents = true →
      (AddDocuments m [d]).1 = AddOutcome.ok ∧
      mapKeys (AddDocuments m [d]).2.documents = mapKeys m.documents ∧
      mapKeys (AddDocuments m [d]).2.vectors = mapKeys m.vectors ∧
      (AddDocuments m [d]).2.documents.length = m.documents.length ∧
      mapFind? d.ID (AddDocuments m [d]).2.documents = some d ∧
      mapFind? d.ID (AddDocuments m [d]).2.vectors = some v) := by
  refine ⟨sameKeys_applyOps, ?_, ?_⟩
  · intro m id hsk hmem
    exact mapFind?_isSome_of_mem_keys id m.vectors (hsk ▸ hmem)
  · intro m d v hemb hsk hhas
    have hhasv : mapHasKey d.ID m.vectors = true := (mapHasKey_congr d.ID hsk) ▸ hhas
    rw [AddDocuments_single m d v hemb]
    refine ⟨rfl, ?_, ?_, ?_, ?_, ?_⟩
    · show mapKeys (mapInsert d.ID d m.documents) = mapKeys m.documents
      rw [mapKeys_mapInsert, if_pos hhas]
    · show mapKeys (mapInsert d.ID v m.vectors) = mapKeys m.vectors
      rw [mapKeys_mapInsert, if_pos hhasv]
    · have hkeq : mapKeys (mapInsert d.ID d m.documents) = mapKeys m.documents := by
        rw [mapKeys_mapInsert, if_pos hhas]
      have := congrArg List.length hkeq
      rw [mapKeys_length, mapKeys_length] at this
      exact this
    · exact mapFind?_mapInsert_self d.ID d m.documents
    · exact mapFind?_mapInsert_self d.ID v m.vectors

/-- Witness for C10 at the concrete one-document store. -/
theorem claim_c10_witness :
    sameKeys (applyOps witnessStore [StoreOp.add [witnessDoc], StoreOp.del ("x")]) ∧
    (AddDocuments witnessStore [witnessDoc]).1 = AddOutcome.ok ∧
    mapFind? ("a") (AddDocuments witnessStore [witnessDoc]).2.documents = some witnessDoc :=
  ⟨claim_c10_invariant.1 witnessStore [StoreOp.add [witnessDoc], StoreOp.del ("x")]
    (fun ts vs h => by cases h; simp) rfl,
   (claim_c10_invariant.2.2 witnessStore witnessDoc [] rfl rfl rfl).1,
   (claim_c10_invariant.2.2 witnessStore witnessDoc [] rfl rfl rfl).2.2.2.2.1⟩

end ToRag
